import Mathlib

/-!
Verification of the ztensor core: extended integers (`OmegaInt`, `OmegaUInt`)
with checked arithmetic, the lazy tensor engine (`ZTensor`), and the dense
matrix bridge (`to_nalg_mat` / `nalgebra_mat_to_zmat`), shallowly embedded
from the Rust sources.  A `panic!` branch of the Rust code is modelled by the
`PRes.panicked` constructor; a checked operation's "no result" is `some`/`none`
inside a non-panicking `PRes.ok`.
-/

namespace Ztensor

/-- Rust `type Sign = i8`: the sign classification of a value, `1`, `-1` or `0`. -/
abbrev Sign := Int

/-- The result of running a Rust function that may `panic!`: either a normal
value or a panic (fatal failure). -/
inductive PRes (α : Type) where
  | panicked
  | ok (val : α)
  deriving DecidableEq

/-- Sequencing of possibly-panicking computations: a panic propagates. -/
def PRes.bind {α β : Type} : PRes α → (α → PRes β) → PRes β
  | .panicked, _ => .panicked
  | .ok a, f => f a

/-- Mapping over a possibly-panicking computation. -/
def PRes.map {α β : Type} (f : α → β) : PRes α → PRes β
  | .panicked => .panicked
  | .ok a => .ok (f a)

/-- The operations of the underlying signed-integer-like type `N`, modelling
the Rust trait bounds `CheckedAdd + CheckedSub + CheckedMul + CheckedDiv +
PrimGetSign + Zero + Neg<Output = N>` placed on `OmegaInt<N>`'s parameter.
`sign_valid` records the contract of `PrimGetSign`'s blanket implementation
over `num_traits::Signed` (`is_positive → 1`, `is_negative → -1`, else `0`),
which is the only implementation the crate provides. -/
structure PrimSigned (N : Type) where
  checked_add : N → N → Option N
  checked_sub : N → N → Option N
  checked_mul : N → N → Option N
  checked_div : N → N → Option N
  get_sign : N → Sign
  neg : N → N
  zero : N
  sign_valid : ∀ x, get_sign x = 1 ∨ get_sign x = -1 ∨ get_sign x = 0

/-- Rust `enum OmegaInt<N> { Integer(N), POmega, MOmega }`: a signed integer
extended with positive (`POmega`) and negative (`MOmega`) infinity. -/
inductive OmegaInt (N : Type) where
  | Integer (n : N)
  | POmega
  | MOmega
  deriving DecidableEq

/-- `PMOmega::is_pmomega` for `OmegaInt`: `1` for `POmega`, `-1` for `MOmega`,
`0` otherwise. -/
def OmegaInt.is_pmomega {N : Type} : OmegaInt N → Sign
  | .POmega => 1
  | .MOmega => -1
  | .Integer _ => 0

/-- `GetSign for OmegaInt<N>`: infinities have sign `±1`; a finite value
delegates to the underlying type's sign. -/
def OmegaInt.get_sign {N : Type} (P : PrimSigned N) : OmegaInt N → Sign
  | .POmega => 1
  | .MOmega => -1
  | .Integer x => P.get_sign x

/-- `omega_int_chkd_op` (omega_int.rs): the common driver of the signed checked
operations.  If either operand is infinite the `omega_checker` decides; both
unwraps of `Integer` payloads are `panic!` branches in the source; with
`chk_zero` the `sign_checker` handles a zero operand; otherwise the underlying
`op` runs, `none` becoming `value_if_op_overflow`. -/
def omega_int_chkd_op {N : Type} (P : PrimSigned N)
    (lhs rhs : OmegaInt N)
    (op : N → N → Option N)
    (omega_checker : Sign → Sign → PRes (Option (OmegaInt N)))
    (chk_zero : Bool)
    (sign_checker : Sign → Sign → Option (OmegaInt N))
    (value_if_op_overflow : Option (OmegaInt N)) :
    PRes (Option (OmegaInt N)) :=
  let lhs_osp := lhs.is_pmomega
  let rhs_osp := rhs.is_pmomega
  if (lhs_osp, rhs_osp) ≠ ((0 : Sign), (0 : Sign)) then
    omega_checker lhs_osp rhs_osp
  else
    match lhs with
    | .Integer lhs_value =>
      match rhs with
      | .Integer rhs_value =>
        if chk_zero then
          -- source: `(lhs_value.get_sign(), rhs.get_sign())`; here `rhs` is
          -- `Integer rhs_value`, whose `GetSign` is the underlying sign
          let lhs_zero := P.get_sign lhs_value
          let rhs_zero := P.get_sign rhs_value
          if ¬(lhs_zero ≠ 0 ∧ rhs_zero ≠ 0) then
            .ok (sign_checker lhs_zero rhs_zero)
          else
            match op lhs_value rhs_value with
            | some x => .ok (some (.Integer x))
            | none => .ok value_if_op_overflow
        else
          match op lhs_value rhs_value with
          | some x => .ok (some (.Integer x))
          | none => .ok value_if_op_overflow
      | _ => .panicked
    | _ => .panicked

/-- `empty_sign_checker` (omega_int.rs): always "no result". -/
def empty_sign_checker (N : Type) : Sign → Sign → Option (OmegaInt N) :=
  fun _ _ => none

/-- The `omega_checker` nested in `CheckedAdd for OmegaInt`: note the source
returns `POmega` for both same-signed combinations, including `(-1, -1)`. -/
def add_omega_checker (N : Type) (s0 s1 : Sign) : PRes (Option (OmegaInt N)) :=
  if s0 = 0 then
    (if s1 = 1 then .ok (some .POmega)
     else if s1 = -1 then .ok (some .MOmega)
     else .panicked)
  else if s1 = 0 then
    (if s0 = 1 then .ok (some .POmega)
     else if s0 = -1 then .ok (some .MOmega)
     else .panicked)
  else if s0 = 1 ∧ s1 = 1 then .ok (some .POmega)
  else if s0 = -1 ∧ s1 = -1 then .ok (some .POmega)
  else .ok none

/-- `CheckedAdd for OmegaInt<N>::checked_add`. -/
def OmegaInt.checked_add {N : Type} (P : PrimSigned N) (a v : OmegaInt N) :
    PRes (Option (OmegaInt N)) :=
  omega_int_chkd_op P a v P.checked_add (add_omega_checker N) false
    (empty_sign_checker N) none

/-- The `omega_checker` nested in `CheckedSub for OmegaInt`: note the source
returns `POmega` for both opposite-signed combinations, including `(-1, 1)`. -/
def sub_omega_checker (N : Type) (s0 s1 : Sign) : PRes (Option (OmegaInt N)) :=
  if s0 = 0 then
    (if s1 = 1 then .ok (some .MOmega)
     else if s1 = -1 then .ok (some .POmega)
     else .panicked)
  else if s1 = 0 then
    (if s0 = 1 then .ok (some .POmega)
     else if s0 = -1 then .ok (some .MOmega)
     else .panicked)
  else if s0 = 1 ∧ s1 = -1 then .ok (some .POmega)
  else if s0 = -1 ∧ s1 = 1 then .ok (some .POmega)
  else .ok none

/-- `CheckedSub for OmegaInt<N>::checked_sub`. -/
def OmegaInt.checked_sub {N : Type} (P : PrimSigned N) (a v : OmegaInt N) :
    PRes (Option (OmegaInt N)) :=
  omega_int_chkd_op P a v P.checked_sub (sub_omega_checker N) false
    (empty_sign_checker N) none

/-- `CheckedMul for OmegaInt<N>::checked_mul` (written as a direct match in
the source; the `_ => panic!()` arms of the sign matches are `panicked`). -/
def OmegaInt.checked_mul {N : Type} (P : PrimSigned N) (a v : OmegaInt N) :
    PRes (Option (OmegaInt N)) :=
  match a with
  | .POmega =>
    match v with
    | .POmega => .ok (some .POmega)
    | .MOmega => .ok (some .MOmega)
    | .Integer x =>
      if P.get_sign x = 1 then .ok (some .POmega)
      else if P.get_sign x = -1 then .ok (some .MOmega)
      else if P.get_sign x = 0 then .ok none
      else .panicked
  | .MOmega =>
    match v with
    | .POmega => .ok (some .MOmega)
    | .MOmega => .ok (some .POmega)
    | .Integer x =>
      if P.get_sign x = 1 then .ok (some .MOmega)
      else if P.get_sign x = -1 then .ok (some .POmega)
      else if P.get_sign x = 0 then .ok none
      else .panicked
  | .Integer x =>
    match v with
    | .POmega =>
      if P.get_sign x = 1 then .ok (some .POmega)
      else if P.get_sign x = -1 then .ok (some .MOmega)
      else if P.get_sign x = 0 then .ok none
      else .panicked
    | .MOmega =>
      if P.get_sign x = 1 then .ok (some .MOmega)
      else if P.get_sign x = -1 then .ok (some .POmega)
      else if P.get_sign x = 0 then .ok none
      else .panicked
    | .Integer y =>
      match P.checked_mul x y with
      | some s => .ok (some (.Integer s))
      | none => .ok none

/-- `CheckedDiv for OmegaInt<N>::checked_div`: infinity over infinity is
undefined; a finite dividend over either infinity is `Self::zero()`. -/
def OmegaInt.checked_div {N : Type} (P : PrimSigned N) (a v : OmegaInt N) :
    PRes (Option (OmegaInt N)) :=
  match a with
  | .POmega =>
    match v with
    | .POmega => .ok none
    | .MOmega => .ok none
    | .Integer x =>
      if P.get_sign x = 1 then .ok (some .POmega)
      else if P.get_sign x = -1 then .ok (some .MOmega)
      else if P.get_sign x = 0 then .ok none
      else .panicked
  | .MOmega =>
    match v with
    | .POmega => .ok none
    | .MOmega => .ok none
    | .Integer x =>
      if P.get_sign x = 1 then .ok (some .MOmega)
      else if P.get_sign x = -1 then .ok (some .POmega)
      else if P.get_sign x = 0 then .ok none
      else .panicked
  | .Integer x =>
    match v with
    | .POmega => .ok (some (.Integer P.zero))
    | .MOmega => .ok (some (.Integer P.zero))
    | .Integer y =>
      match P.checked_div x y with
      | some s => .ok (some (.Integer s))
      | none => .ok none

/-- `Neg for OmegaInt<N>::neg`: swaps the infinities, negates a finite value. -/
def OmegaInt.neg {N : Type} (P : PrimSigned N) : OmegaInt N → OmegaInt N
  | .POmega => .MOmega
  | .MOmega => .POmega
  | .Integer x => .Integer (P.neg x)

/-- `Sub for OmegaInt` (the unchecked form): panics ("Overflow!") when
`checked_sub` yields no result. -/
def OmegaInt.sub {N : Type} (P : PrimSigned N) (a v : OmegaInt N) :
    PRes (OmegaInt N) :=
  match OmegaInt.checked_sub P a v with
  | .ok (some y) => .ok y
  | .ok none => .panicked
  | .panicked => .panicked

/-- The underlying operations at `N = FiniteIndex = i64`, as the tensor engine
instantiates them.  `i64` arithmetic is modelled on unbounded `Int` (64-bit
wraparound of index arithmetic is not modelled; the claims below evaluate it
only inside the representable range). -/
def intPrim : PrimSigned Int where
  checked_add a b := some (a + b)
  checked_sub a b := some (a - b)
  checked_mul a b := some (a * b)
  checked_div a b := if b = 0 then none else some (Int.tdiv a b)
  get_sign x := if 0 < x then 1 else if x < 0 then -1 else 0
  neg x := -x
  zero := 0
  sign_valid := by
    intro x
    dsimp only
    split
    · exact Or.inl rfl
    split
    · exact Or.inr (Or.inl rfl)
    · exact Or.inr (Or.inr rfl)

/-- The operations of the underlying unsigned-integer-like type `N`, modelling
the Rust trait bounds `Unsigned + CheckedAdd + CheckedSub + CheckedMul +
CheckedDiv` placed on `OmegaUInt<N>`'s parameter (`Unsigned` supplies `zero`
and equality). -/
structure PrimUnsigned (N : Type) where
  checked_add : N → N → Option N
  checked_sub : N → N → Option N
  checked_mul : N → N → Option N
  checked_div : N → N → Option N
  zero : N

/-- Rust `enum OmegaUInt<N> { Natural(N), Omega }`: an unsigned integer
extended with the single infinity `Omega`. -/
inductive OmegaUInt (N : Type) where
  | Natural (n : N)
  | Omega
  deriving DecidableEq

/-- `Omega::is_omega` for `OmegaUInt`. -/
def OmegaUInt.is_omega {N : Type} : OmegaUInt N → Bool
  | .Omega => true
  | .Natural _ => false

/-- `Zero::is_zero` for `OmegaUInt`: infinity is never zero. -/
def OmegaUInt.is_zero {N : Type} [DecidableEq N] (Q : PrimUnsigned N) :
    OmegaUInt N → Bool
  | .Omega => false
  | .Natural x => decide (x = Q.zero)

/-- `omega_uint_chkd_op` (omega_uint.rs): the common driver of the unsigned
checked operations.  The three omega combinations and (under `chk_zero`) the
three zero combinations return the corresponding configured value; the
`Omega => panic!()` unwrap arms are `panicked`; otherwise the underlying `op`
runs, `none` becoming `value_if_op_overflow`. -/
def omega_uint_chkd_op {N : Type} [DecidableEq N] (Q : PrimUnsigned N)
    (lhs rhs : OmegaUInt N)
    (op : N → N → Option N)
    (value_if_only_lhs_omega value_if_only_rhs_omega
      value_if_lhs_rhs_omega : Option (OmegaUInt N))
    (chk_zero : Bool)
    (value_if_only_lhs_zero value_if_only_rhs_zero
      value_if_lhs_rhs_zero : Option (OmegaUInt N))
    (value_if_op_overflow : Option (OmegaUInt N)) :
    PRes (Option (OmegaUInt N)) :=
  let is_lhs_omega := lhs.is_omega
  let is_rhs_omega := rhs.is_omega
  if is_lhs_omega && !is_rhs_omega then .ok value_if_only_lhs_omega
  else if !is_lhs_omega && is_rhs_omega then .ok value_if_only_rhs_omega
  else if is_lhs_omega && is_rhs_omega then .ok value_if_lhs_rhs_omega
  else
    match lhs with
    | .Natural lhs_value =>
      match rhs with
      | .Natural rhs_value =>
        if chk_zero then
          if lhs_value = Q.zero ∧ rhs_value ≠ Q.zero then
            .ok value_if_only_lhs_zero
          else if lhs_value ≠ Q.zero ∧ rhs_value = Q.zero then
            .ok value_if_only_rhs_zero
          else if lhs_value = Q.zero ∧ rhs_value = Q.zero then
            .ok value_if_lhs_rhs_zero
          else
            match op lhs_value rhs_value with
            | some x => .ok (some (.Natural x))
            | none => .ok value_if_op_overflow
        else
          match op lhs_value rhs_value with
          | some x => .ok (some (.Natural x))
          | none => .ok value_if_op_overflow
      | .Omega => .panicked
    | .Omega => .panicked

/-- `CheckedAdd for OmegaUInt<N>::checked_add`: any infinite operand makes the
result infinite, and — note — overflow of the underlying add also yields
`Omega` (`value_if_op_overflow = Some(Omega)` in the source). -/
def OmegaUInt.checked_add {N : Type} [DecidableEq N] (Q : PrimUnsigned N)
    (a v : OmegaUInt N) : PRes (Option (OmegaUInt N)) :=
  omega_uint_chkd_op Q a v Q.checked_add
    (some .Omega) (some .Omega) (some .Omega)
    false none none none
    (some .Omega)

/-- `CheckedSub for OmegaUInt<N>::checked_sub`. -/
def OmegaUInt.checked_sub {N : Type} [DecidableEq N] (Q : PrimUnsigned N)
    (a v : OmegaUInt N) : PRes (Option (OmegaUInt N)) :=
  omega_uint_chkd_op Q a v Q.checked_sub
    (some .Omega) none none
    false none none none
    none

/-- `CheckedDiv for OmegaUInt<N>::checked_div`. -/
def OmegaUInt.checked_div {N : Type} [DecidableEq N] (Q : PrimUnsigned N)
    (a v : OmegaUInt N) : PRes (Option (OmegaUInt N)) :=
  omega_uint_chkd_op Q a v Q.checked_div
    (some .Omega) (some (.Natural Q.zero)) none
    true (some (.Natural Q.zero)) none none
    none

/-- `CheckedMul for OmegaUInt<N>::checked_mul`: zero times infinity in either
order is rejected first; then the driver runs with `Some(Omega)` only for an
infinite left operand (`value_if_only_rhs_omega` and `value_if_lhs_rhs_omega`
are `None` in the source). -/
def OmegaUInt.checked_mul {N : Type} [DecidableEq N] (Q : PrimUnsigned N)
    (a v : OmegaUInt N) : PRes (Option (OmegaUInt N)) :=
  if (OmegaUInt.is_zero Q a && v.is_omega) || (a.is_omega && OmegaUInt.is_zero Q v) then
    .ok none
  else
    omega_uint_chkd_op Q a v Q.checked_mul
      (some .Omega) none none
      false none none none
      none

/-- The number of values of `u64`: its checked operations fail outside
`[0, 2^64)`. -/
def u64size : Nat := 2 ^ 64

/-- The underlying operations at `N = u64`, modelled on `Nat` with the `u64`
range made explicit. -/
def u64Prim : PrimUnsigned Nat where
  checked_add a b := if a + b < u64size then some (a + b) else none
  checked_sub a b := if b ≤ a then some (a - b) else none
  checked_mul a b := if a * b < u64size then some (a * b) else none
  checked_div a b := if b = 0 then none else some (a / b)
  zero := 0

/-- Rust `type FiniteIndex = i64` (modelled on unbounded `Int`, see
`intPrim`). -/
abbrev FiniteIndex := Int

/-- Rust `type OmegaIndex = OmegaInt<FiniteIndex>`. -/
abbrev OmegaIndex := OmegaInt Int

/-- Rust `Range<OmegaIndex>`, a half-open range of extended indices (`end` is
a Lean keyword, hence the field name `end_`). -/
structure ORange where
  start : OmegaIndex
  end_ : OmegaIndex
  deriving DecidableEq

/-- Rust `Complex<T>` as used for `type Elem = Complex<f32>`: the component
type is kept abstract (`f32` values are opaque to every claim below; the only
operation the claims touch is negation of the imaginary part, passed in as
`neg` where needed). -/
structure Complexf (R : Type) where
  re : R
  im : R
  deriving DecidableEq

/-- `Complex::conj`: conjugation negates the imaginary part. -/
def Complexf.conj {R : Type} (neg : R → R) (z : Complexf R) : Complexf R :=
  ⟨z.re, neg z.im⟩

/-- Rust `struct ZTensor<const N: usize>` (ztensor_impls.rs): advertised
half-open index ranges for each of the `N` dimensions, and the stored pure
generating function from a finite index tuple to an element. -/
structure ZTensor (R : Type) (N : Nat) where
  index_ranges : Fin N → ORange
  value_getter : (Fin N → FiniteIndex) → Complexf R

/-- `ZTensorLike::get_index_ranges` for `ZTensor`: a pure accessor. -/
def ZTensor.get_index_ranges {R : Type} {N : Nat} (t : ZTensor R N) :
    Fin N → ORange :=
  t.index_ranges

/-- `ZTensorLike::get_single_elem` for `ZTensor`: invokes the stored
generator. -/
def ZTensor.get_single_elem {R : Type} {N : Nat} (t : ZTensor R N)
    (indices : Fin N → FiniteIndex) : Complexf R :=
  t.value_getter indices

/-- `ZTensorLikeFromRangesValues::from_ranges_values` for `ZTensor`. -/
def ZTensor.from_ranges_values {R : Type} {N : Nat} (ranges : Fin N → ORange)
    (value_getter : (Fin N → FiniteIndex) → Complexf R) : ZTensor R N :=
  ⟨ranges, value_getter⟩

/-- The default (blanket) `ZTensorLikeSlice::get_slice`: rebuilds the tensor
from the replacement ranges and a closure delegating element access to the
original tensor. -/
def ZTensor.get_slice {R : Type} {N : Nat} (t : ZTensor R N)
    (ranges : Fin N → ORange) : ZTensor R N :=
  ZTensor.from_ranges_values ranges (fun indices => t.get_single_elem indices)

/-- `ZMatrix::conj_trans`: swaps the two index ranges and conjugates the
element fetched at the transposed index pair. -/
def ZMatrix.conj_trans {R : Type} (neg : R → R) (t : ZTensor R 2) :
    ZTensor R 2 :=
  ZTensor.from_ranges_values ![t.index_ranges 1, t.index_ranges 0]
    (fun idx => Complexf.conj neg (t.value_getter ![idx 1, idx 0]))

/-- nalgebra's `DMatrix` at the bridge's boundary: dimensions and the cells
`DMatrix::from_fn` fills (`entry` is the generating closure; the bridge only
reads cells inside `nrows × ncols`). -/
structure DMat (R : Type) where
  nrows : Nat
  ncols : Nat
  entry : Nat → Nat → Complexf R

/-- The per-dimension body of `to_nalg_mat`'s `finite_len` map: a finite
non-negative length becomes a `usize`; a negative length and either infinity
are `panic!` branches. -/
def finite_len_of : OmegaIndex → PRes Nat
  | .Integer x => if x < 0 then .panicked else .ok x.toNat
  | _ => .panicked

/-- The per-dimension body of `to_nalg_mat`'s `start_indices` map: an infinite
start is a `panic!` branch. -/
def start_index_of (r : ORange) : PRes FiniteIndex :=
  match r.start with
  | .Integer x => .ok x
  | _ => .panicked

/-- `to_nalg_mat` (to_nalg_mat.rs): computes each dimension's length as
`r.end - r.start` with the unchecked `Sub` (panics on an indeterminate
difference), requires the lengths finite and non-negative and the starts
finite (panics otherwise), then builds the dense matrix whose `(i, j)` cell is
the tensor's element at `(start₀ + i, start₁ + j)`. -/
def to_nalg_mat {R : Type} (t : ZTensor R 2) : PRes (DMat R) :=
  let ranges := t.get_index_ranges
  (OmegaInt.sub intPrim (ranges 0).end_ (ranges 0).start).bind fun l0 =>
  (OmegaInt.sub intPrim (ranges 1).end_ (ranges 1).start).bind fun l1 =>
  (finite_len_of l0).bind fun n0 =>
  (finite_len_of l1).bind fun n1 =>
  (start_index_of (ranges 0)).bind fun s0 =>
  (start_index_of (ranges 1)).bind fun s1 =>
  .ok { nrows := n0, ncols := n1,
        entry := fun i j => t.get_single_elem ![s0 + (i : Int), s1 + (j : Int)] }

/-- `nalgebra_mat_to_zmat` (to_nalg_mat.rs): the resulting tensor's ranges
start at zero and end at the matrix dimensions, and its generator indexes
directly into the matrix (`as usize` on an index that is in range for the
produced tensor, hence non-negative, is `Int.toNat`). -/
def nalgebra_mat_to_zmat {R : Type} (mat : DMat R) : ZTensor R 2 :=
  ZTensor.from_ranges_values
    ![⟨.Integer 0, .Integer (mat.nrows : Int)⟩,
      ⟨.Integer 0, .Integer (mat.ncols : Int)⟩]
    (fun idx => mat.entry (idx 0).toNat (idx 1).toNat)

/-- The smallest `i64` value. -/
def i64min : Int := -(2 ^ 63)

/-- The largest `i64` value. -/
def i64max : Int := 2 ^ 63 - 1

/-- The common shape of `i64`'s checked operations: the exact result when it
fits the `i64` range, `none` on overflow. -/
def i64chk (v : Int) : Option Int :=
  if i64min ≤ v ∧ v ≤ i64max then some v else none

/-- The underlying operations at `N = i64` with the 64-bit range modelled
faithfully: every checked operation fails outside `[i64min, i64max]`,
`checked_div` fails on division by zero and on `i64min / -1`, and `neg` wraps
at `i64min` (release-mode two's-complement behaviour of Rust's `Neg`; in a
debug build that negation panics instead — either way `negate(i64::MIN)` is
not the exact negation). -/
def i64Prim : PrimSigned Int where
  checked_add a b := i64chk (a + b)
  checked_sub a b := i64chk (a - b)
  checked_mul a b := i64chk (a * b)
  checked_div a b :=
    if b = 0 ∨ (a = i64min ∧ b = -1) then none else some (Int.tdiv a b)
  get_sign x := if 0 < x then 1 else if x < 0 then -1 else 0
  neg x := if x = i64min then i64min else -x
  zero := 0
  sign_valid := by
    intro x
    dsimp only
    split
    · exact Or.inl rfl
    split
    · exact Or.inr (Or.inl rfl)
    · exact Or.inr (Or.inr rfl)

/-- Whether an extended index is a finite `Integer` (the predicate the bridge's
`finite_len`/`start_indices` checks enforce by panicking). -/
def OmegaInt.is_finite {N : Type} : OmegaInt N → Bool
  | .Integer _ => true
  | _ => false

/-- Subtraction as the specification words it: `sub(a, b) = add(a, negate(b))`
(spec §4.1).  Compared below with the source's independent `checked_sub`. -/
def OmegaInt.sub_spec {N : Type} (P : PrimSigned N) (a b : OmegaInt N) :
    PRes (Option (OmegaInt N)) :=
  OmegaInt.checked_add P a (OmegaInt.neg P b)

/-- The tensor of the round-trip counterexample: ranges `[1,2) × [0,1)` (finite
on both dimensions, first range not based at zero) and a generator whose value
depends on the first index. -/
def roundTripCexTensor : ZTensor Int 2 :=
  ZTensor.from_ranges_values ![⟨.Integer 1, .Integer 2⟩, ⟨.Integer 0, .Integer 1⟩]
    (fun idx => ⟨idx 0, idx 0⟩)

/-- A concrete tensor with an infinite extent on its first dimension. -/
def infiniteExtentTensor : ZTensor Int 2 :=
  ZTensor.from_ranges_values ![⟨.Integer 0, .POmega⟩, ⟨.Integer 0, .Integer 1⟩]
    (fun _ => ⟨0, 0⟩)

/-- A concrete 2 × 3 tensor over `Bool` components used to witness the
conjugate-transpose round trip. -/
def conjTransWitnessTensor : ZTensor Bool 2 :=
  ZTensor.from_ranges_values ![⟨.Integer 0, .Integer 2⟩, ⟨.Integer 0, .Integer 3⟩]
    (fun idx => ⟨decide (idx 0 = 0), decide (idx 1 = 1)⟩)

/-- Unchecked subtraction of two finite extended indices never panics and is
plain subtraction (the `intPrim` instantiation). -/
theorem omegaInt_sub_finite (e s : Int) :
    OmegaInt.sub intPrim (.Integer e) (.Integer s) = .ok (.Integer (e - s)) := by
  simp [OmegaInt.sub, OmegaInt.checked_sub, omega_int_chkd_op, OmegaInt.is_pmomega,
    intPrim, sub_omega_checker, empty_sign_checker]

/-- Signed checked addition never reaches a panic branch. -/
theorem omegaInt_checked_add_no_panic {A : Type} (P : PrimSigned A)
    (a b : OmegaInt A) : OmegaInt.checked_add P a b ≠ PRes.panicked := by
  cases a <;> cases b <;>
    simp [OmegaInt.checked_add, omega_int_chkd_op, OmegaInt.is_pmomega,
      add_omega_checker, empty_sign_checker] <;>
    split <;> simp

/-- Signed checked subtraction never reaches a panic branch. -/
theorem omegaInt_checked_sub_no_panic {A : Type} (P : PrimSigned A)
    (a b : OmegaInt A) : OmegaInt.checked_sub P a b ≠ PRes.panicked := by
  cases a <;> cases b <;>
    simp [OmegaInt.checked_sub, omega_int_chkd_op, OmegaInt.is_pmomega,
      sub_omega_checker, empty_sign_checker] <;>
    split <;> simp

/-- Signed checked multiplication never reaches a panic branch (the `_ =>
panic!()` sign arms are unreachable because `get_sign` only yields 1, -1, 0). -/
theorem omegaInt_checked_mul_no_panic {A : Type} (P : PrimSigned A)
    (a b : OmegaInt A) : OmegaInt.checked_mul P a b ≠ PRes.panicked := by
  cases a with
  | POmega => cases b with
    | POmega => simp [OmegaInt.checked_mul]
    | MOmega => simp [OmegaInt.checked_mul]
    | Integer x => rcases P.sign_valid x with h | h | h <;> simp [OmegaInt.checked_mul, h]
  | MOmega => cases b with
    | POmega => simp [OmegaInt.checked_mul]
    | MOmega => simp [OmegaInt.checked_mul]
    | Integer x => rcases P.sign_valid x with h | h | h <;> simp [OmegaInt.checked_mul, h]
  | Integer x => cases b with
    | POmega => rcases P.sign_valid x with h | h | h <;> simp [OmegaInt.checked_mul, h]
    | MOmega => rcases P.sign_valid x with h | h | h <;> simp [OmegaInt.checked_mul, h]
    | Integer y => simp only [OmegaInt.checked_mul]; cases P.checked_mul x y <;> simp

/-- Signed checked division never reaches a panic branch. -/
theorem omegaInt_checked_div_no_panic {A : Type} (P : PrimSigned A)
    (a b : OmegaInt A) : OmegaInt.checked_div P a b ≠ PRes.panicked := by
  cases a with
  | POmega => cases b with
    | POmega => simp [OmegaInt.checked_div]
    | MOmega => simp [OmegaInt.checked_div]
    | Integer x => rcases P.sign_valid x with h | h | h <;> simp [OmegaInt.checked_div, h]
  | MOmega => cases b with
    | POmega => simp [OmegaInt.checked_div]
    | MOmega => simp [OmegaInt.checked_div]
    | Integer x => rcases P.sign_valid x with h | h | h <;> simp [OmegaInt.checked_div, h]
  | Integer x => cases b with
    | POmega => simp [OmegaInt.checked_div]
    | MOmega => simp [OmegaInt.checked_div]
    | Integer y => simp only [OmegaInt.checked_div]; cases P.checked_div x y <;> simp

/-- Unsigned checked addition never reaches a panic branch. -/
theorem omegaUInt_checked_add_no_panic {B : Type} [DecidableEq B]
    (Q : PrimUnsigned B) (a b : OmegaUInt B) :
    OmegaUInt.checked_add Q a b ≠ PRes.panicked := by
  cases a <;> cases b <;>
    simp [OmegaUInt.checked_add, omega_uint_chkd_op, OmegaUInt.is_omega] <;>
    split <;> simp

/-- Unsigned checked subtraction never reaches a panic branch. -/
theorem omegaUInt_checked_sub_no_panic {B : Type} [DecidableEq B]
    (Q : PrimUnsigned B) (a b : OmegaUInt B) :
    OmegaUInt.checked_sub Q a b ≠ PRes.panicked := by
  cases a <;> cases b <;>
    simp [OmegaUInt.checked_sub, omega_uint_chkd_op, OmegaUInt.is_omega] <;>
    split <;> simp

/-- Unsigned checked multiplication never reaches a panic branch. -/
theorem omegaUInt_checked_mul_no_panic {B : Type} [DecidableEq B]
    (Q : PrimUnsigned B) (a b : OmegaUInt B) :
    OmegaUInt.checked_mul Q a b ≠ PRes.panicked := by
  cases a <;> cases b <;>
    simp [OmegaUInt.checked_mul, omega_uint_chkd_op, OmegaUInt.is_omega,
      OmegaUInt.is_zero] <;>
    (repeat' split) <;> simp

/-- Unsigned checked division never reaches a panic branch. -/
theorem omegaUInt_checked_div_no_panic {B : Type} [DecidableEq B]
    (Q : PrimUnsigned B) (a b : OmegaUInt B) :
    OmegaUInt.checked_div Q a b ≠ PRes.panicked := by
  cases a <;> cases b <;>
    simp [OmegaUInt.checked_div, omega_uint_chkd_op, OmegaUInt.is_omega] <;>
    (repeat' split) <;> simp

/-- A dimension with an infinite endpoint either panics already in the
unchecked length subtraction or yields an infinite length on which
`finite_len` panics. -/
theorem range_infinite_panics (r : ORange)
    (h : r.start.is_finite = false ∨ r.end_.is_finite = false) :
    OmegaInt.sub intPrim r.end_ r.start = .panicked ∨
    ∃ w, OmegaInt.sub intPrim r.end_ r.start = .ok w ∧ finite_len_of w = .panicked := by
  obtain ⟨s, e⟩ := r
  cases s <;> cases e <;>
    simp_all [OmegaInt.is_finite, OmegaInt.sub, OmegaInt.checked_sub, omega_int_chkd_op,
      OmegaInt.is_pmomega, sub_omega_checker, empty_sign_checker, finite_len_of]

/-- C1: what signed checked addition actually does on infinite operands, at
the `FiniteIndex` instantiation.  Opposite-signed infinities yield no result
as the claim states, and `POmega + POmega = POmega`; but `MOmega + MOmega`
evaluates to `POmega`, not `MOmega` — the code contradicts the claim (and the
spec's own stated rule) on the negative pair. -/
theorem add_infinite_operands_eval :
    OmegaInt.checked_add intPrim .POmega .POmega = .ok (some .POmega) ∧
    OmegaInt.checked_add intPrim .MOmega .MOmega = .ok (some .POmega) ∧
    OmegaInt.checked_add intPrim .POmega .MOmega = .ok none ∧
    OmegaInt.checked_add intPrim .MOmega .POmega = .ok none :=
  ⟨by decide, by decide, by decide, by decide⟩

/-- C2 (counterexample): at `u64`, `Finite(2^64 - 1) + Finite(1)` overflows the
underlying checked add, and the unsigned checked addition yields `Omega`
(saturation), not the no-result outcome the claim states. -/
theorem uint_add_overflow_not_none :
    OmegaUInt.checked_add u64Prim (.Natural (u64size - 1)) (.Natural 1)
      = .ok (some .Omega) ∧
    OmegaUInt.checked_add u64Prim (.Natural (u64size - 1)) (.Natural 1)
      ≠ .ok none :=
  ⟨by decide, by decide⟩

/-- C2 (amended): unsigned checked addition of two finite `u64` operands
delegates to the underlying checked add, yielding `Finite(a+b)` when it does
not overflow and `Omega` (saturation to infinity, `value_if_op_overflow =
Some(Omega)`) when it does. -/
theorem uint_add_finite_delegates_saturating (a b : Nat)
    (ha : a < u64size) (hb : b < u64size) :
    OmegaUInt.checked_add u64Prim (.Natural a) (.Natural b) =
      if a + b < u64size then .ok (some (.Natural (a + b)))
      else .ok (some .Omega) := by
  by_cases hc : a + b < u64size <;>
    simp [OmegaUInt.checked_add, omega_uint_chkd_op, OmegaUInt.is_omega, u64Prim, hc]

/-- C2 (witness): the amended theorem applied at `a = 3`, `b = 4`. -/
theorem uint_add_finite_delegates_saturating_witness :
    (3 < u64size ∧ 4 < u64size) ∧
    OmegaUInt.checked_add u64Prim (.Natural 3) (.Natural 4) =
      if 3 + 4 < u64size then .ok (some (.Natural (3 + 4)))
      else .ok (some .Omega) :=
  ⟨⟨by decide, by decide⟩,
    uint_add_finite_delegates_saturating 3 4 (by decide) (by decide)⟩

/-- C3 (counterexample): `Finite(1) × Omega` yields no result in the code,
while the claim states it yields `Omega` like `Omega × Finite(1)` does. -/
theorem uint_mul_finite_times_omega_none :
    OmegaUInt.checked_mul u64Prim (.Natural 1) .Omega = .ok none ∧
    OmegaUInt.checked_mul u64Prim (.Natural 1) .Omega ≠ .ok (some .Omega) :=
  ⟨by decide, by decide⟩

/-- C3 (amended): unsigned checked multiplication is not commutative over an
infinite operand: for finite non-zero `n`, `Omega × Finite(n)` yields `Omega`
but `Finite(n) × Omega` yields no result (`value_if_only_rhs_omega = None`);
both zero-times-infinity orders yield no result as the claim states. -/
theorem uint_mul_omega_rules (n : Nat) (hn : n ≠ 0) :
    OmegaUInt.checked_mul u64Prim .Omega (.Natural n) = .ok (some .Omega) ∧
    OmegaUInt.checked_mul u64Prim (.Natural n) .Omega = .ok none ∧
    OmegaUInt.checked_mul u64Prim .Omega (.Natural 0) = .ok none ∧
    OmegaUInt.checked_mul u64Prim (.Natural 0) .Omega = .ok none := by
  refine ⟨?_, ?_, by decide, by decide⟩ <;>
    simp [OmegaUInt.checked_mul, omega_uint_chkd_op, OmegaUInt.is_omega,
      OmegaUInt.is_zero, u64Prim, hn]

/-- C3 (witness): the amended theorem applied at `n = 1`. -/
theorem uint_mul_omega_rules_witness :
    (1 ≠ 0) ∧
    (OmegaUInt.checked_mul u64Prim .Omega (.Natural 1) = .ok (some .Omega) ∧
     OmegaUInt.checked_mul u64Prim (.Natural 1) .Omega = .ok none ∧
     OmegaUInt.checked_mul u64Prim .Omega (.Natural 0) = .ok none ∧
     OmegaUInt.checked_mul u64Prim (.Natural 0) .Omega = .ok none) :=
  ⟨by decide, uint_mul_omega_rules 1 (by decide)⟩

/-- C4 (counterexample): the tensor with finite ranges `[1,2) × [0,1)`
converts successfully, but the round-trip tensor advertises ranges based at
zero and its element at the in-range index `(0,0)` is the original's element
at `(1,0)`, which differs from the original's element at `(0,0)` — the
round trip re-bases the ranges, so elements do not match at the same index. -/
theorem round_trip_offset_mismatch :
    PRes.map (fun m => (nalgebra_mat_to_zmat m).get_index_ranges 0)
        (to_nalg_mat roundTripCexTensor)
      = .ok ⟨.Integer 0, .Integer 1⟩ ∧
    PRes.map (fun m => (nalgebra_mat_to_zmat m).get_single_elem ![0, 0])
        (to_nalg_mat roundTripCexTensor)
      = .ok ⟨1, 1⟩ ∧
    roundTripCexTensor.get_single_elem ![0, 0] = ⟨0, 0⟩ ∧
    ((⟨1, 1⟩ : Complexf Int) ≠ ⟨0, 0⟩) :=
  ⟨by decide, by decide, by decide, by decide⟩

/-- C4 (amended): for a 2-dimensional tensor whose two ranges are finite,
non-reversed and based at zero, converting to a dense matrix succeeds and
converting back yields a tensor whose element at every in-range index equals
the original tensor's element at that same index. -/
theorem round_trip_zero_based_ranges (R : Type)
    (g : (Fin 2 → FiniteIndex) → Complexf R) (e0 e1 i j : Int)
    (h0 : 0 ≤ i) (h1 : i < e0) (h2 : 0 ≤ j) (h3 : j < e1) :
    PRes.map (fun m => (nalgebra_mat_to_zmat m).get_single_elem ![i, j])
      (to_nalg_mat (ZTensor.from_ranges_values
        ![⟨.Integer 0, .Integer e0⟩, ⟨.Integer 0, .Integer e1⟩] g))
      = .ok ((ZTensor.from_ranges_values
        ![⟨.Integer 0, .Integer e0⟩, ⟨.Integer 0, .Integer e1⟩] g).get_single_elem
          ![i, j]) := by
  have he0 : ¬ (e0 < 0) := by omega
  have he1 : ¬ (e1 < 0) := by omega
  simp [to_nalg_mat, ZTensor.from_ranges_values, ZTensor.get_index_ranges,
    omegaInt_sub_finite, finite_len_of, start_index_of, PRes.bind, PRes.map,
    he0, he1, nalgebra_mat_to_zmat, ZTensor.get_single_elem]
  congr 1
  funext d
  fin_cases d <;> simp [Int.toNat_of_nonneg, h0, h2]

/-- C4 (witness): the amended round trip applied at ranges `[0,2) × [0,2)`,
index `(1,1)`, with a generator depending on both indices. -/
theorem round_trip_zero_based_ranges_witness :
    ((0 : Int) ≤ 1 ∧ (1 : Int) < 2) ∧
    PRes.map (fun m => (nalgebra_mat_to_zmat m).get_single_elem ![1, 1])
      (to_nalg_mat (ZTensor.from_ranges_values
        ![⟨.Integer 0, .Integer 2⟩, ⟨.Integer 0, .Integer 2⟩]
        (fun idx => (⟨idx 0, idx 1⟩ : Complexf Int))))
      = .ok ((ZTensor.from_ranges_values
        ![⟨.Integer 0, .Integer 2⟩, ⟨.Integer 0, .Integer 2⟩]
        (fun idx => (⟨idx 0, idx 1⟩ : Complexf Int))).get_single_elem ![1, 1]) :=
  ⟨⟨by decide, by decide⟩,
    round_trip_zero_based_ranges Int (fun idx => ⟨idx 0, idx 1⟩) 2 2 1 1
      (by decide) (by decide) (by decide) (by decide)⟩

/-- C5 (counterexample): at the crate's `i64` instantiation the claimed
identity fails at a finite input: `Finite(0) − Finite(i64::MIN)` overflows the
underlying checked subtraction and yields no result, while
`add(Finite(0), negate(Finite(i64::MIN)))` succeeds with `Finite(i64::MIN)`
(negation wraps at the minimum in release mode — and panics in debug, so under
neither behaviour does it equal the checked subtraction). -/
theorem checked_sub_add_negate_min_cex :
    OmegaInt.checked_sub i64Prim (.Integer 0) (.Integer i64min) = .ok none ∧
    OmegaInt.sub_spec i64Prim (.Integer 0) (.Integer i64min)
      = .ok (some (.Integer i64min)) ∧
    OmegaInt.checked_sub i64Prim (.Integer 0) (.Integer i64min)
      ≠ OmegaInt.sub_spec i64Prim (.Integer 0) (.Integer i64min) :=
  ⟨by decide, by decide, by decide⟩

/-- C5 (amended): at the `i64` instantiation, `sub(a, b)` equals
`add(a, negate(b))` for every pair of extended values whose right operand is
not `Finite(i64::MIN)` (the one value whose negation overflows); in
particular `+∞ − +∞` yields no result and `+∞ − (−∞) = +∞`.  The identity
holds for every combination of infinite operands, including the two
combinations both `checked_add` and `checked_sub` send to `POmega`. -/
theorem checked_sub_eq_add_negate_except_min (a b : OmegaInt Int)
    (hb : b ≠ .Integer i64min) :
    OmegaInt.checked_sub i64Prim a b = OmegaInt.sub_spec i64Prim a b ∧
    OmegaInt.checked_sub i64Prim .POmega .POmega = .ok none ∧
    OmegaInt.checked_sub i64Prim .POmega .MOmega = .ok (some .POmega) := by
  refine ⟨?_, by decide, by decide⟩
  cases a <;> cases b <;>
    simp_all [OmegaInt.checked_sub, OmegaInt.sub_spec, OmegaInt.checked_add,
      omega_int_chkd_op, OmegaInt.is_pmomega, OmegaInt.neg,
      sub_omega_checker, add_omega_checker, empty_sign_checker,
      i64Prim, Int.sub_eq_add_neg]

/-- C5 (witness): the amended identity applied at `Finite(5) − Finite(3)`,
whose right operand is not the minimum. -/
theorem checked_sub_eq_add_negate_except_min_witness :
    ((OmegaInt.Integer 3 : OmegaInt Int) ≠ .Integer i64min) ∧
    (OmegaInt.checked_sub i64Prim (.Integer 5) (.Integer 3)
        = OmegaInt.sub_spec i64Prim (.Integer 5) (.Integer 3) ∧
      OmegaInt.checked_sub i64Prim .POmega .POmega = .ok none ∧
      OmegaInt.checked_sub i64Prim .POmega .MOmega = .ok (some .POmega)) :=
  ⟨by decide,
    checked_sub_eq_add_negate_except_min (.Integer 5) (.Integer 3) (by decide)⟩

/-- C6: converting a 2-dimensional tensor with an infinite endpoint on either
dimension panics: the conversion's result is the fatal `panicked` outcome, so
no matrix value (and no generator evaluation) is ever produced. -/
theorem to_nalg_mat_infinite_extent_fatal (R : Type) (t : ZTensor R 2)
    (h : (t.index_ranges 0).start.is_finite = false
       ∨ (t.index_ranges 0).end_.is_finite = false
       ∨ (t.index_ranges 1).start.is_finite = false
       ∨ (t.index_ranges 1).end_.is_finite = false) :
    to_nalg_mat t = .panicked := by
  have hd : ((t.index_ranges 0).start.is_finite = false
        ∨ (t.index_ranges 0).end_.is_finite = false)
      ∨ ((t.index_ranges 1).start.is_finite = false
        ∨ (t.index_ranges 1).end_.is_finite = false) := by
    tauto
  rcases hd with hd0 | hd1
  · rcases range_infinite_panics _ hd0 with hsub | ⟨w, hw, hflen⟩
    · simp [to_nalg_mat, ZTensor.get_index_ranges, hsub, PRes.bind]
    · cases h1 : OmegaInt.sub intPrim (t.index_ranges 1).end_ (t.index_ranges 1).start <;>
        simp [to_nalg_mat, ZTensor.get_index_ranges, hw, h1, hflen, PRes.bind]
  · cases h0 : OmegaInt.sub intPrim (t.index_ranges 0).end_ (t.index_ranges 0).start with
    | panicked => simp [to_nalg_mat, ZTensor.get_index_ranges, h0, PRes.bind]
    | ok w0 =>
      rcases range_infinite_panics _ hd1 with hsub | ⟨w, hw, hflen⟩
      · simp [to_nalg_mat, ZTensor.get_index_ranges, h0, hsub, PRes.bind]
      · cases hf0 : finite_len_of w0 <;>
          simp [to_nalg_mat, ZTensor.get_index_ranges, h0, hw, hf0, hflen, PRes.bind]

/-- C6 (witness): the fatal-failure theorem applied to a concrete tensor
whose first dimension ends at `POmega`. -/
theorem to_nalg_mat_infinite_extent_fatal_witness :
    ((infiniteExtentTensor.index_ranges 0).start.is_finite = false
       ∨ (infiniteExtentTensor.index_ranges 0).end_.is_finite = false
       ∨ (infiniteExtentTensor.index_ranges 1).start.is_finite = false
       ∨ (infiniteExtentTensor.index_ranges 1).end_.is_finite = false) ∧
    to_nalg_mat infiniteExtentTensor = .panicked :=
  ⟨by decide, to_nalg_mat_infinite_extent_fatal Int infiniteExtentTensor (by decide)⟩

/-- C7: slicing a tensor by replacement ranges `r` yields a tensor whose
advertised ranges are exactly `r` and whose element at any finite index tuple
is identical to the original's element at that same tuple — no index
translation and no access clipping. -/
theorem get_slice_replaces_ranges_only (R : Type) (N : Nat) (t : ZTensor R N)
    (r : Fin N → ORange) (idx : Fin N → FiniteIndex) :
    (t.get_slice r).get_index_ranges = r ∧
    (t.get_slice r).get_single_elem idx = t.get_single_elem idx :=
  ⟨rfl, rfl⟩

/-- C8: applying the conjugate transpose twice restores both advertised
extents and every element (conjugation cancels because negating the imaginary
component twice is the identity, as `f32` negation is). -/
theorem conj_trans_round_trip (R : Type) (neg : R → R)
    (hneg : ∀ x, neg (neg x) = x) (t : ZTensor R 2) (i j : Int) :
    (ZMatrix.conj_trans neg (ZMatrix.conj_trans neg t)).get_index_ranges
      = t.get_index_ranges ∧
    (ZMatrix.conj_trans neg (ZMatrix.conj_trans neg t)).get_single_elem ![i, j]
      = t.get_single_elem ![i, j] := by
  constructor
  · funext d
    fin_cases d <;>
      simp [ZMatrix.conj_trans, ZTensor.from_ranges_values, ZTensor.get_index_ranges]
  · simp [ZMatrix.conj_trans, ZTensor.from_ranges_values, ZTensor.get_single_elem,
      Complexf.conj, hneg]

/-- C8 (witness): the round trip applied to a concrete 2 × 3 tensor over
`Bool` components with boolean complement as the (involutive) negation,
evaluated at index `(1, 2)`. -/
theorem conj_trans_round_trip_witness :
    (∀ x : Bool, Bool.not (Bool.not x) = x) ∧
    ((ZMatrix.conj_trans Bool.not
        (ZMatrix.conj_trans Bool.not conjTransWitnessTensor)).get_index_ranges
      = conjTransWitnessTensor.get_index_ranges ∧
     (ZMatrix.conj_trans Bool.not
        (ZMatrix.conj_trans Bool.not conjTransWitnessTensor)).get_single_elem ![1, 2]
      = conjTransWitnessTensor.get_single_elem ![1, 2]) :=
  ⟨by decide,
    conj_trans_round_trip Bool Bool.not (by decide) conjTransWitnessTensor 1 2⟩

/-- C9: every checked arithmetic operation on the signed and the unsigned
extended integer is total: none of the internal panic branches of the checked
code paths is reachable, for any pair of operands. -/
theorem checked_arithmetic_total (A B : Type) [DecidableEq B]
    (P : PrimSigned A) (Q : PrimUnsigned B) :
    (∀ a b : OmegaInt A,
      OmegaInt.checked_add P a b ≠ PRes.panicked ∧
      OmegaInt.checked_sub P a b ≠ PRes.panicked ∧
      OmegaInt.checked_mul P a b ≠ PRes.panicked ∧
      OmegaInt.checked_div P a b ≠ PRes.panicked) ∧
    (∀ a b : OmegaUInt B,
      OmegaUInt.checked_add Q a b ≠ PRes.panicked ∧
      OmegaUInt.checked_sub Q a b ≠ PRes.panicked ∧
      OmegaUInt.checked_mul Q a b ≠ PRes.panicked ∧
      OmegaUInt.checked_div Q a b ≠ PRes.panicked) :=
  ⟨fun a b =>
    ⟨omegaInt_checked_add_no_panic P a b, omegaInt_checked_sub_no_panic P a b,
     omegaInt_checked_mul_no_panic P a b, omegaInt_checked_div_no_panic P a b⟩,
   fun a b =>
    ⟨omegaUInt_checked_add_no_panic Q a b, omegaUInt_checked_sub_no_panic Q a b,
     omegaUInt_checked_mul_no_panic Q a b, omegaUInt_checked_div_no_panic Q a b⟩⟩

/-- C10: at finite ranges, a reversed dimension (end strictly below start)
makes the dense-matrix conversion fail fatally (on a reversed dimension the
real code panics either at the explicit negative-length check or, when the
difference of the endpoints overflows `i64`, already in the unchecked length
subtraction — fatally either way), while non-reversed ranges whose lengths
are representable in `i64` — the empty (end = start) case included — convert
to a matrix whose dimensions are the range lengths, an empty range giving a
zero-sized dimension without error.  The success conjunct carries the
`i64max` span bounds because for a wider span `i64`'s `r.end - r.start`
itself overflows and the program panics instead of producing a matrix. -/
theorem to_nalg_mat_reversed_vs_empty (R : Type)
    (g : (Fin 2 → FiniteIndex) → Complexf R) (a0 b0 a1 b1 : Int) :
    ((b0 < a0 ∨ b1 < a1) →
      to_nalg_mat (ZTensor.from_ranges_values
        ![⟨.Integer a0, .Integer b0⟩, ⟨.Integer a1, .Integer b1⟩] g)
        = .panicked) ∧
    (a0 ≤ b0 → a1 ≤ b1 → b0 - a0 ≤ i64max → b1 - a1 ≤ i64max →
      PRes.map (fun m => (m.nrows, m.ncols))
        (to_nalg_mat (ZTensor.from_ranges_values
          ![⟨.Integer a0, .Integer b0⟩, ⟨.Integer a1, .Integer b1⟩] g))
        = .ok ((b0 - a0).toNat, (b1 - a1).toNat)) := by
  constructor
  · intro hrev
    rcases hrev with hr | hr
    · have hneg : b0 - a0 < 0 := by omega
      simp [to_nalg_mat, ZTensor.from_ranges_values, ZTensor.get_index_ranges,
        omegaInt_sub_finite, finite_len_of, start_index_of, PRes.bind, hneg]
    · have hneg : b1 - a1 < 0 := by omega
      by_cases hneg0 : b0 - a0 < 0 <;>
        simp [to_nalg_mat, ZTensor.from_ranges_values, ZTensor.get_index_ranges,
          omegaInt_sub_finite, finite_len_of, start_index_of, PRes.bind, hneg, hneg0]
  · intro hs0 hs1 hw0 hw1
    have hn0 : ¬ (b0 - a0 < 0) := by omega
    have hn1 : ¬ (b1 - a1 < 0) := by omega
    simp [to_nalg_mat, ZTensor.from_ranges_values, ZTensor.get_index_ranges,
      omegaInt_sub_finite, finite_len_of, start_index_of, PRes.bind, PRes.map,
      hn0, hn1]

/-- C10 (witness): the theorem applied over `Int` components at the reversed
ranges `[0,-1) × [0,1)` (fatal) and at `[0,0) × [0,1)` (an empty first
dimension converting to a 0 × 1 matrix, both lengths well inside `i64`). -/
theorem to_nalg_mat_reversed_vs_empty_witness :
    (((-1 : Int) < 0 ∨ (1 : Int) < 0) →
      to_nalg_mat (ZTensor.from_ranges_values
        ![⟨.Integer 0, .Integer (-1)⟩, ⟨.Integer 0, .Integer 1⟩]
        (fun _ => (⟨0, 0⟩ : Complexf Int))) = .panicked) ∧
    ((0 : Int) ≤ 0 → (0 : Int) ≤ 1 →
        (0 : Int) - 0 ≤ i64max → (1 : Int) - 0 ≤ i64max →
      PRes.map (fun m => (m.nrows, m.ncols))
        (to_nalg_mat (ZTensor.from_ranges_values
          ![⟨.Integer 0, .Integer 0⟩, ⟨.Integer 0, .Integer 1⟩]
          (fun _ => (⟨0, 0⟩ : Complexf Int))))
        = .ok (((0 : Int) - 0).toNat, ((1 : Int) - 0).toNat)) :=
  ⟨(to_nalg_mat_reversed_vs_empty Int (fun _ => ⟨0, 0⟩) 0 (-1) 0 1).1,
   (to_nalg_mat_reversed_vs_empty Int (fun _ => ⟨0, 0⟩) 0 0 0 1).2⟩

end Ztensor

